import Mathlib

/-!
# unisondb: gRPC replication demo

A shallow embedding of the two programs of `cmd/examples/grpc-replication-demo`:

* `grpc-client2/main.go`: the replica process (the `LoggingWalHandler` decorator, the
  set-up and shut-down paths of `main`, the liveness reporter);
* `writer-api/main.go`: the HTTP write ingress (`writeHandler`, `writeToUnisonDB`).

Effects are made explicit: every operation returns, next to its Go result, the ordered
list of observable events it performed (log lines, calls on the wrapped sink, upstream
HTTP requests), and stateful collaborators thread their state.
-/

set_option linter.dupNamespace false

namespace UnisonDB

/-! ## Shared vocabulary -/

/-- A Go `error` value that is not nil, identified by its message. A Go result of type
`error` is an `Option GoError`, with `none` for `nil`. -/
abbrev GoError := String

/-- A value of static type `interface{}`. Only what the decorator can observe of it is
kept: whether its dynamic type is `[]*interface{}` (and then its elements, as opaque
pointers), or any other dynamic type, or the nil interface. -/
inductive AnyValue where
  | nilValue
  | ptrInterfaceSlice (elems : List Nat)
  | other (typeName : String) (ident : Nat)
  deriving DecidableEq, Repr

/-- A position in the write-ahead log, as `engine.CurrentOffset()` returns it: the
reporter reads its fields `SegmentID` and `Offset`. -/
structure Offset where
  SegmentID : Nat
  Offset : Nat
  deriving DecidableEq, Repr

/-! ## grpc-client2: the logging decorator -/

namespace Client

/-- The constant `clientName`. -/
def clientName : String := "GRPC-CLIENT-2"

/-- The constant `clientPort`. -/
def clientPort : String := "9002"

/-- What an execution of the decorator does, in order: a line handed to `log.Printf`,
or a method call on the wrapped sink together with its argument. -/
inductive Event where
  | log (line : String)
  | sinkWrite (data : AnyValue)
  | sinkWriteBatch (records : AnyValue)
  deriving DecidableEq, Repr

/-- Whether the event is a method call on the wrapped sink. -/
def Event.isSinkCall : Event → Bool
  | .log _ => false
  | .sinkWrite _ => true
  | .sinkWriteBatch _ => true

/-- The interface `relayer.WalIO` as the decorator uses it: the two methods, each a
function of its argument and of the state `σ` of the implementation, giving the
returned `error` and the next state. -/
structure WalIO (σ : Type) where
  Write : AnyValue → σ → Option GoError × σ
  WriteBatch : AnyValue → σ → Option GoError × σ

/-- The struct `LoggingWalHandler`. The field `underlying` has interface type, so it is
either the nil interface (`none`) or holds an implementation. -/
structure LoggingWalHandler (σ : Type) where
  underlying : Option ( WalIO σ)
  clientName : String

/-- The constructor `NewLoggingWalHandler`. -/
def NewLoggingWalHandler {σ : Type} (underlying : Option ( WalIO σ)) (clientName : String) :
    LoggingWalHandler σ :=
  { underlying := underlying, clientName := clientName }

/-- The result of one decorator call: the returned `error`, the state of the wrapped
sink afterwards, and the events performed, oldest first. -/
structure CallResult (σ : Type) where
  err : Option GoError
  state : σ
  events : List Event

/-- The error both methods return when the assertion on `underlying` fails. -/
def errNotWalIO : GoError := "underlying handler does not implement WalIO"

/-- The method `(*LoggingWalHandler).Write`. The assertion
`l.underlying.(relayer.WalIO)` succeeds exactly when the interface is not nil. -/
def LoggingWalHandler.Write {σ : Type} (l : LoggingWalHandler σ) (data : AnyValue) (s : σ) :
    CallResult σ :=
  let line := "[" ++ l.clientName ++ "] 📥 Received WAL record from UnisonDB"
  match l.underlying with
  | some walIO =>
    let r := walIO.Write data s
    { err := r.1, state := r.2, events := [Event.log line, Event.sinkWrite data] }
  | none =>
    { err := some errNotWalIO, state := s, events := [Event.log line] }

/-- The method `(*LoggingWalHandler).WriteBatch`. The assertion on `records` only chooses
the line that is logged. -/
def LoggingWalHandler.WriteBatch {σ : Type} (l : LoggingWalHandler σ) (records : AnyValue)
    (s : σ) : CallResult σ :=
  let line :=
    match records with
    | .ptrInterfaceSlice recs =>
      "[" ++ l.clientName ++ "] 📦 Received batch of " ++ toString recs.length ++
        " WAL records from UnisonDB"
    | _ => "[" ++ l.clientName ++ "] 📦 Received WAL batch from UnisonDB"
  match l.underlying with
  | some walIO =>
    let r := walIO.WriteBatch records s
    { err := r.1, state := r.2, events := [Event.log line, Event.sinkWriteBatch records] }
  | none =>
    { err := some errNotWalIO, state := s, events := [Event.log line] }

/-- A sink used to exercise the decorator: its state counts the records it holds,
`Write` fails on the nil value, `WriteBatch` fails on anything that is not a slice. -/
def countingSink : WalIO Nat where
  Write := fun data n =>
    match data with
    | .nilValue => (some "nil record", n)
    | _ => (none, n + 1)
  WriteBatch := fun records n =>
    match records with
    | .ptrInterfaceSlice recs => (none, n + recs.length)
    | _ => (some "not a batch", n)

/-! ## grpc-client2: `main` -/

/-- The three command-line flags, with the defaults `flag.String` declares. The flag
`namespace` is named `ns` here. -/
structure Flags where
  upstreamAddr : String := "localhost:4001"
  ns : String := "demo"
  dataDir : String := "/tmp/unisondb-client2"

/-- The struct `dbkernel.StorageConfig`, with the fields `initializeEngine` sets. -/
structure StorageConfig where
  BaseDir : String
  Namespaces : List String
  BytesPerSync : Nat
  SegmentSize : Nat
  deriving DecidableEq, Repr

/-- A handle on a `*dbkernel.Engine`: the configuration it was opened with. -/
structure Engine where
  config : StorageConfig
  deriving DecidableEq, Repr

/-- The non-nil values of `ctx.Err()`. -/
inductive CtxErr where
  | Canceled
  | DeadlineExceeded
  deriving DecidableEq, Repr

/-- The collaborators of `main`, each reduced to the outcome `main` branches on.
`ctxErr` is the value of `ctx.Err()` at the moment `StartRelay` has returned: the
signal goroutine calls `cancel()` concurrently, so it is an input of the run. -/
structure Env where
  MkdirAll : String → Nat → Option GoError
  dbkernelNew : StorageConfig → Option GoError
  Dial : String → Option GoError
  StartRelay : Engine → String → Nat → Option GoError
  ctxErr : Option CtxErr

/-- How a run of `main` ends: it returns, or `log.Fatalf` prints the line and exits with
status 1. -/
inductive Exit where
  | returned
  | fatal (line : String)
  deriving DecidableEq, Repr

/-- A run of `main`: the lines given to `log.Printf` and `log.Println` on the main
goroutine, oldest first, and how the run ends. -/
structure Run where
  logs : List String
  exit : Exit
  deriving DecidableEq, Repr

/-- Whether the run ended in `log.Fatalf`. -/
def Run.isFatal (r : Run) : Bool :=
  match r.exit with
  | .fatal _ => true
  | .returned => false

/-- The function `initializeEngine`: the storage configuration is fixed by the two
arguments, and an error of `dbkernel.New` is wrapped. -/
def initializeEngine (new : StorageConfig → Option GoError) (dataDir ns : String) :
    Except GoError Engine :=
  let storageConfig : StorageConfig :=
    { BaseDir := dataDir
      Namespaces := [ns]
      BytesPerSync := 1024 * 1024
      SegmentSize := 16 * 1024 * 1024 }
  match new storageConfig with
  | some err => .error ("failed to create engine: " ++ err)
  | none => .ok { config := storageConfig }

/-- The end of `main`, from the return of `rel.StartRelay(ctx)`: the lines logged from
there on and how the run ends. -/
def relayEnd (err : Option GoError) (ctxErr : Option CtxErr) : Run :=
  let done : Run :=
    { logs := ["✅ " ++ clientName ++ " shut down successfully"], exit := .returned }
  match err with
  | some e =>
    if ctxErr ≠ some CtxErr.Canceled then
      { logs := [], exit := .fatal ("Relay error: " ++ e) }
    else done
  | none => done

/-- The function `main` of grpc-client2, on the main goroutine. -/
def main (flags : Flags) (env : Env) : Run :=
  let banner : List String :=
    [ "🚀 Starting " ++ clientName
    , "🔗 Upstream: " ++ flags.upstreamAddr
    , "📁 Data directory: " ++ flags.dataDir
    , "📚 Namespace: " ++ flags.ns
    , "🌐 Client listening on port: " ++ clientPort ]
  match env.MkdirAll flags.dataDir 0o755 with
  | some err =>
    { logs := banner, exit := .fatal ("Failed to create data directory: " ++ err) }
  | none =>
  match initializeEngine env.dbkernelNew flags.dataDir flags.ns with
  | .error err =>
    { logs := banner, exit := .fatal ("Failed to initialize engine: " ++ err) }
  | .ok engine =>
  let ready := banner ++ ["✅ Local replica engine initialized"]
  match env.Dial flags.upstreamAddr with
  | some err =>
    { logs := ready, exit := .fatal ("Failed to connect to upstream: " ++ err) }
  | none =>
  let segmentLagThreshold := 10
  let started := ready ++
    [ "✅ Connected to upstream UnisonDB"
    , "✅ Relayer configured"
    , "🔄 Starting replication stream for namespace '" ++ flags.ns ++ "'..."
    , "📊 Monitoring incoming data from UnisonDB..."
    , "─────────────────────────────────────────────" ]
  let tail := relayEnd (env.StartRelay engine flags.ns segmentLagThreshold) env.ctxErr
  { logs := started ++ tail.logs, exit := tail.exit }

/-- The causes the specification lists for a fatal exit, read off the outcomes of a
run: the data directory could not be created, the connection to the upstream could not
be established, or the relay came back with a failure (every failure of the relay is
counted as an apply failure here). -/
def listedCause (flags : Flags) (env : Env) : Prop :=
  env.MkdirAll flags.dataDir 0o755 ≠ none ∨
  env.Dial flags.upstreamAddr ≠ none ∨
  ∃ engine, env.StartRelay engine flags.ns 10 ≠ none

/-- An environment in which only the creation of the engine fails. -/
def engineFailsEnv : Env where
  MkdirAll := fun _ _ => none
  dbkernelNew := fun _ => some "timeout"
  Dial := fun _ => none
  StartRelay := fun _ _ _ => none
  ctxErr := none

/-- An environment in which everything succeeds until the relay returns `err`, the
context's error being `ctxErr` by then. -/
def relayReturnsEnv (err : Option GoError) (ctxErr : Option CtxErr) : Env where
  MkdirAll := fun _ _ => none
  dbkernelNew := fun _ => none
  Dial := fun _ => none
  StartRelay := fun _ _ _ => err
  ctxErr := ctxErr

/-! ## grpc-client2: the liveness reporter -/

/-- The methods of the engine a goroutine can call. -/
inductive EngineCall where
  | CurrentOffset
  | Write
  | WriteBatch
  | Close
  deriving DecidableEq, Repr

/-- What the reporter goroutine does, in order. -/
inductive ReportEvent where
  | engine (call : EngineCall)
  | log (line : String)
  deriving DecidableEq, Repr

/-- What wakes the reporter's `select`: a tick of the 30 second ticker, carrying what
`engine.CurrentOffset()` returns at that moment (`none` for a nil pointer), or the
closing of `ctx.Done()`. -/
inductive Wake where
  | tick (current : Option Offset)
  | done
  deriving DecidableEq, Repr

/-- The line the reporter logs for a result of `CurrentOffset`. -/
def reportLine : Option Offset → String
  | some currentOffset =>
    "[" ++ clientName ++ "] 📍 Current offset: segment=" ++ toString currentOffset.SegmentID ++
      ", offset=" ++ toString currentOffset.Offset
  | none => "[" ++ clientName ++ "] 📍 Waiting for first record..."

/-- The body of the `case <-ticker.C` branch. -/
def reportTick (current : Option Offset) : List ReportEvent :=
  [ReportEvent.engine EngineCall.CurrentOffset, ReportEvent.log (reportLine current)]

/-- The reporter goroutine over the wake-ups it receives: it loops on ticks and returns
on `ctx.Done()`; with no wake-up left it stays blocked in `select`. -/
def reporter : List Wake → List ReportEvent
  | [] => []
  | .done :: _ => []
  | .tick current :: rest => reportTick current ++ reporter rest

/-- The ticks the reporter serves: those before the first `done`. -/
def servedTicks : List Wake → List (Option Offset)
  | [] => []
  | .done :: _ => []
  | .tick current :: rest => current :: servedTicks rest

/-- The engine calls among a list of the reporter's events. -/
def engineCalls : List ReportEvent → List EngineCall
  | [] => []
  | .engine c :: rest => c :: engineCalls rest
  | .log _ :: rest => engineCalls rest

/-- The logged lines among a list of the reporter's events. -/
def loggedLines : List ReportEvent → List String
  | [] => []
  | .engine _ :: rest => loggedLines rest
  | .log line :: rest => line :: loggedLines rest

end Client

/-! ## The relay behind `relayer.NewRelayer(...).StartRelay`

The package `internal/services/relayer` is not among the sources; `main` only
constructs the relayer and calls `StartRelay`. The streaming step is modelled from the
specification (data model, sections 4.1, 4.2 and 4.4). -/

namespace Relay

/-- The three results of comparing two offsets. -/
inductive Cmp where
  | less
  | equal
  | greater
  deriving DecidableEq, Repr

/-- Modelled from the spec: the relayer package is missing from the sources; this is the
one operation of the offset model, `compare(a, b)`, by the (segmentID, offset)
lexicographic rule. -/
def compare (a b : Offset) : Cmp :=
  if a.SegmentID < b.SegmentID then .less
  else if b.SegmentID < a.SegmentID then .greater
  else if a.Offset < b.Offset then .less
  else if b.Offset < a.Offset then .greater
  else .equal

/-- Modelled from the spec: a WAL record of the missing relayer package, an opaque
mutation payload plus the offset it terminates at. -/
structure WalRecord where
  payload : Nat
  offset : Offset
  deriving DecidableEq, Repr

/-- Modelled from the spec: a WAL batch of the missing relayer package, an ordered,
non-empty sequence of records (a first record and the ones after it). -/
structure Batch where
  first : WalRecord
  rest : List WalRecord
  deriving DecidableEq, Repr

/-- The records of a batch, in order. -/
def Batch.records (b : Batch) : List WalRecord := b.first :: b.rest

/-- The leading offset of a batch: the offset of its first record. -/
def Batch.leading (b : Batch) : Offset := b.first.offset

/-- The position of a batch: the offset of its last record. -/
def Batch.terminal (b : Batch) : Offset := (b.rest.getLast?.getD b.first).offset

/-- Modelled from the spec: the records of a batch share monotonically increasing
offsets, so no record of a batch comes before an earlier one of the same batch. -/
def Batch.WellFormed (b : Batch) : Prop :=
  (b.records.map WalRecord.offset).Pairwise (fun x y => compare x y ≠ Cmp.greater)

/-- Modelled from the spec: the monotonicity check of step 3a of the missing `run`. The
offset `o` is strictly greater than the last applied offset; a replica that never
received data accepts every offset. -/
def strictlyAfter (last : Option Offset) (o : Offset) : Bool :=
  match last with
  | none => true
  | some l => decide (compare o l = Cmp.greater)

/-- Modelled from the spec: the local apply sink the missing relayer consumes, reduced
to whether the `n`-th call of `applyBatch` (counted from 0 over the whole run) succeeds
on the batch it is given. A failed call leaves the durable offset unchanged. -/
abbrev Sink := Nat → Batch → Bool

/-- Modelled from the spec: the session of the missing relayer. `lastApplied` is the
last successfully applied offset, `applied` the batches applied so far (oldest first),
`dropped` the batches dropped as already applied, `calls` the number of `applyBatch`
calls issued, and `fatal` whether an apply fault has been escalated. -/
structure Session where
  lastApplied : Option Offset
  applied : List Batch
  dropped : List Batch
  calls : Nat
  fatal : Bool
  deriving DecidableEq, Repr

/-- Modelled from the spec: step 3b of the missing `run`. `applyBatch` is invoked until
it succeeds, at most `attempts` times; the result is whether it succeeded and the number
of calls issued by then. -/
def applyWithRetry (sink : Sink) (b : Batch) : Nat → Nat → Bool × Nat
  | 0, calls => (false, calls)
  | attempts + 1, calls =>
    if sink calls b then (true, calls + 1)
    else applyWithRetry sink b attempts (calls + 1)

/-- Modelled from the spec: what the missing `run` does with one received batch while
streaming (steps 3a and 3b). After a fatal apply fault nothing more is consumed; a batch
whose leading offset is not strictly after the last applied offset is dropped; any other
batch is applied, and the last applied offset advances to the batch's terminal offset. -/
def onBatch (sink : Sink) (maxAttempts : Nat) (s : Session) (b : Batch) : Session :=
  if s.fatal then s
  else if strictlyAfter s.lastApplied b.leading then
    match applyWithRetry sink b maxAttempts s.calls with
    | (true, calls) =>
      { s with lastApplied := some b.terminal, applied := s.applied ++ [b], calls := calls }
    | (false, calls) => { s with calls := calls, fatal := true }
  else { s with dropped := s.dropped ++ [b] }

/-- Modelled from the spec: the session the missing `run` starts with (step 1), from the
sink's current offset. -/
def start (current : Option Offset) : Session :=
  { lastApplied := current, applied := [], dropped := [], calls := 0, fatal := false }

/-- Modelled from the spec: the missing `run` over the batches the upstream delivers, in
arrival order (across reconnections the deliveries are one sequence). -/
def run (sink : Sink) (maxAttempts : Nat) (current : Option Offset) (batches : List Batch) :
    Session :=
  batches.foldl (onBatch sink maxAttempts) (start current)

/-- Each batch of the list leads strictly after the offset applied before it: the
leading offset of the first is strictly after `last`, and each later one is strictly
after the terminal offset of its predecessor. -/
def AppliedInOrder : Option Offset → List Batch → Prop
  | _, [] => True
  | last, b :: rest => strictlyAfter last b.leading = true ∧ AppliedInOrder (some b.terminal) rest

/-- The offset applied last once `applied` has been applied on top of `current`: the
terminal offset of the last batch, or `current` when there is none. -/
def lastOf (current : Option Offset) (applied : List Batch) : Option Offset :=
  match applied.getLast? with
  | some b => some b.terminal
  | none => current

instance (b : Batch) : Decidable b.WellFormed := by
  unfold Batch.WellFormed
  infer_instance

/-- A batch of records with the given offsets in segment 0 (the first one given apart). -/
def batchOf (first : Nat) (rest : List Nat) : Batch :=
  { first := { payload := first, offset := { SegmentID := 0, Offset := first } }
    rest := rest.map (fun n => { payload := n, offset := { SegmentID := 0, Offset := n } }) }

/-- A sink that never fails. -/
def healthySink : Sink := fun _ _ => true

end Relay

/-! ## writer-api: the write ingress -/

namespace Writer

/-- The constant `unisonDBURL`. -/
def unisonDBURL : String := "http://localhost:8001/api/v1"

/-- The constant `namespace`, named `ns` here. -/
def ns : String := "demo"

/-- The struct `WriteRequest`. -/
structure WriteRequest where
  Key : String
  Value : String
  deriving DecidableEq, Repr

/-- The struct `WriteResponse`. -/
structure WriteResponse where
  Success : Bool
  Message : String
  Key : String
  deriving DecidableEq, Repr

/-- The struct `UnisonDBPutRequest`; `json.Marshal` turns it into a JSON object with the
single field `value`. -/
structure UnisonDBPutRequest where
  Value : String
  deriving DecidableEq, Repr

/-- A byte. -/
abbrev Byte := Fin 256

/-- The byte with the value `n % 256`. -/
def toByte (n : Nat) : Byte := ⟨n % 256, Nat.mod_lt n (by decide)⟩

/-- The conversion `[]byte(value)`: the bytes of a string, which are its UTF-8 encoding. -/
def goBytes (value : String) : List Byte :=
  value.toUTF8.data.toList.map (fun b => b.val)

/-- The alphabet of the standard base64 encoding. -/
def encodeStd : String := "ABCDEFGHIJKLMNOPQRSTUVWXYZabcdefghijklmnopqrstuvwxyz0123456789+/"

/-- The padding character of the standard base64 encoding. -/
def padChar : Char := '='

/-- The character of the alphabet at the index `i`. -/
def encodeChar (i : Nat) : Char := encodeStd.data.getD i 'A'

/-- The index in the alphabet of the character `c`, if it is in the alphabet. -/
def decodeChar (c : Char) : Option Nat :=
  let i := encodeStd.data.indexOf c
  if i < 64 then some i else none

/-- Modelled from the spec: `base64.StdEncoding` belongs to Go's standard library and is
not among the sources; this is the padded base64 encoding of RFC 4648 (section 4) on
the list of input bytes. Each group of three bytes is read as a 24-bit number and
written as four 6-bit indices into the alphabet; a last group of one or two bytes is
filled with zero bits, written as two or three characters and padded to four. -/
def encodeGroups : List Byte → List Char
  | a :: b :: c :: rest =>
    let val := a.val * 65536 + b.val * 256 + c.val
    encodeChar (val / 262144 % 64) :: encodeChar (val / 4096 % 64) ::
      encodeChar (val / 64 % 64) :: encodeChar (val % 64) :: encodeGroups rest
  | [a, b] =>
    let val := a.val * 65536 + b.val * 256
    [encodeChar (val / 262144 % 64), encodeChar (val / 4096 % 64),
      encodeChar (val / 64 % 64), padChar]
  | [a] =>
    let val := a.val * 65536
    [encodeChar (val / 262144 % 64), encodeChar (val / 4096 % 64), padChar, padChar]
  | [] => []

/-- Modelled from the spec: the method `EncodeToString` of the missing
`base64.StdEncoding`, the string of the characters of the encoding. -/
def EncodeToString (src : List Byte) : String := String.mk (encodeGroups src)

/-- Modelled from the spec: the decoding that goes with the missing `base64.StdEncoding`
(RFC 4648, section 4), on the list of characters. Characters are read four at a time;
padding is accepted in the last group only; a character outside the alphabet or a
group that is too short is an error. -/
def decodeGroups : List Char → Option (List Byte)
  | [] => some []
  | c0 :: c1 :: c2 :: c3 :: rest =>
    if c3 = padChar then
      if rest ≠ [] then none
      else if c2 = padChar then
        match decodeChar c0, decodeChar c1 with
        | some i0, some i1 => some [toByte ((i0 * 64 + i1) / 16)]
        | _, _ => none
      else
        match decodeChar c0, decodeChar c1, decodeChar c2 with
        | some i0, some i1, some i2 =>
          let n := i0 * 4096 + i1 * 64 + i2
          some [toByte (n / 1024), toByte (n / 4)]
        | _, _, _ => none
    else
      match decodeChar c0, decodeChar c1, decodeChar c2, decodeChar c3, decodeGroups rest with
      | some i0, some i1, some i2, some i3, some tail =>
        let n := i0 * 262144 + i1 * 4096 + i2 * 64 + i3
        some (toByte (n / 65536) :: toByte (n / 256) :: toByte n :: tail)
      | _, _, _, _, _ => none
  | _ => none

/-- Modelled from the spec: the method `DecodeString` of the missing
`base64.StdEncoding`. -/
def DecodeString (s : String) : Option (List Byte) := decodeGroups s.data

/-- Whether the character is one of `A`-`Z`, `a`-`z`, `0`-`9`, `+`, `/` and `=`. -/
def inBase64Alphabet (c : Char) : Bool :=
  c.isUpper || c.isLower || c.isDigit || c == '+' || c == '/' || c == '='

/-- An HTTP request handed to `client.Do`: the method and URL given to
`http.NewRequest`, the document marshalled into the body, and the `Content-Type`
header. -/
structure HttpRequest where
  method : String
  url : String
  body : UnisonDBPutRequest
  contentType : String
  deriving DecidableEq, Repr

/-- The HTTP library and the upstream, as `writeToUnisonDB` sees them. `NewRequest` is
the error of `http.NewRequest` for a method and a URL (it fails when the URL does not
parse); `Do` is the outcome of `client.Do`: a transport error, or the status code of the
response. -/
structure HttpEnv where
  NewRequest : String → String → Option GoError
  Do : HttpRequest → Except GoError Nat

/-- The outcome of `writeToUnisonDB`: the returned `error` and the requests handed to
`client.Do`, oldest first. -/
structure WriteOutcome where
  err : Option GoError
  requests : List HttpRequest
  deriving DecidableEq, Repr

/-- The lines 67 to 71 of `writeToUnisonDB`: the document that is sent, holding the
base64 encoding of the value's bytes. -/
def putRequest (value : String) : UnisonDBPutRequest :=
  let encodedValue := EncodeToString (goBytes value)
  { Value := encodedValue }

/-- The URL `fmt.Sprintf("%s/%s/kv/%s", unisonDBURL, namespace, key)`. -/
def putURL (key : String) : String :=
  unisonDBURL ++ "/" ++ ns ++ "/kv/" ++ key

/-- The function `writeToUnisonDB`. `json.Marshal` cannot fail on a struct with one
string field, so that error branch is not represented. -/
def writeToUnisonDB (env : HttpEnv) (key value : String) : WriteOutcome :=
  let putReq := putRequest value
  let url := putURL key
  match env.NewRequest "PUT" url with
  | some err => { err := some ("failed to create request: " ++ err), requests := [] }
  | none =>
    let req : HttpRequest :=
      { method := "PUT", url := url, body := putReq, contentType := "application/json" }
    match env.Do req with
    | .error err => { err := some ("failed to send request: " ++ err), requests := [req] }
    | .ok statusCode =>
      if statusCode ≠ 200 then
        { err := some ("unexpected status code: " ++ toString statusCode), requests := [req] }
      else { err := none, requests := [req] }

/-- What `respondJSON` encodes into the response: the map that `respondError` builds
around a message, or a `WriteResponse`. -/
inductive Payload where
  | error (message : String)
  | write (resp : WriteResponse)
  deriving DecidableEq, Repr

/-- The response `respondJSON` writes: the status, the `Content-Type` header and the
payload. -/
structure HttpResponse where
  status : Nat
  contentType : String
  payload : Payload
  deriving DecidableEq, Repr

/-- The function `respondJSON`. -/
def respondJSON (status : Nat) (payload : Payload) : HttpResponse :=
  { status := status, contentType := "application/json", payload := payload }

/-- The function `respondError`. -/
def respondError (status : Nat) (message : String) : HttpResponse :=
  respondJSON status (Payload.error message)

/-- The outcome of `writeHandler`: the response written, the requests issued upstream
and the lines logged. -/
structure HandlerOutcome where
  response : HttpResponse
  requests : List HttpRequest
  logs : List String
  deriving DecidableEq, Repr

/-- The function `writeHandler`. The argument `decoded` is the outcome of
`json.NewDecoder(r.Body).Decode(&req)`: an error, or the request that was decoded. -/
def writeHandler (env : HttpEnv) (decoded : Except GoError WriteRequest) : HandlerOutcome :=
  match decoded with
  | .error _ =>
    { response := respondError 400 "Invalid request body", requests := [], logs := [] }
  | .ok req =>
    if req.Key = "" ∨ req.Value = "" then
      { response := respondError 400 "Key and value are required", requests := [], logs := [] }
    else
      let w := writeToUnisonDB env req.Key req.Value
      match w.err with
      | some err =>
        { response := respondError 500 ("Failed to write to UnisonDB: " ++ err)
          requests := w.requests
          logs := ["Error writing to UnisonDB: " ++ err] }
      | none =>
        { response := respondJSON 200 (Payload.write
            { Success := true, Message := "Data written to UnisonDB successfully", Key := req.Key })
          requests := w.requests
          logs := ["[WRITER] Successfully wrote key=" ++ req.Key ++ ", value=" ++ req.Value] }

/-- The decision table of `writeHandler` as its description gives it, row by row: the
status of the response as a function of how the body decodes, of whether the request
can be created and sent, and of the status the upstream answers with. -/
def tableStatus (env : HttpEnv) (decoded : Except GoError WriteRequest) : Nat :=
  match decoded with
  | .error _ => 400
  | .ok req =>
    if req.Key = "" ∨ req.Value = "" then 400
    else
      match env.NewRequest "PUT" (putURL req.Key) with
      | some _ => 500
      | none =>
        match env.Do { method := "PUT", url := putURL req.Key, body := putRequest req.Value,
                       contentType := "application/json" } with
        | .error _ => 500
        | .ok statusCode => if statusCode = 200 then 200 else 500

/-- Whether the response reports `Success = true`. -/
def reportsSuccess (r : HttpResponse) : Bool :=
  match r.payload with
  | .write resp => resp.Success
  | .error _ => false

/-- The check `stringContainsCTLByte` of Go's `net/url`, the first thing `url.Parse`
does: whether the string holds an ASCII control character. -/
def stringContainsCTLByte (s : String) : Bool :=
  s.data.any (fun c => decide (c.toNat < 0x20) || decide (c.toNat = 0x7f))

/-- An HTTP environment whose `NewRequest` rejects a URL holding an ASCII control
character, as `url.Parse` does, and whose upstream answers every request with 200. -/
def strictEnv : HttpEnv where
  NewRequest := fun _ url =>
    if stringContainsCTLByte url then some "net/url: invalid control character in URL"
    else none
  Do := fun _ => .ok 200

/-- An HTTP environment that accepts every URL and whose upstream answers with the
given status. -/
def answeringEnv (status : Nat) : HttpEnv where
  NewRequest := fun _ _ => none
  Do := fun _ => .ok status

end Writer

end UnisonDB

/-! # Theorems -/

namespace UnisonDB

namespace Client

/-- C1: for a handler whose `underlying` holds a sink, `Write(data)` returns exactly what
the sink's `Write` returns on the same data and leaves the sink in the state that call
leaves it in; the sink is called exactly once, with the identical argument, and the only
other thing done is one log line, before the call. -/
theorem write_delegates_once {σ : Type} (l : LoggingWalHandler σ) ( walIO : WalIO σ)
    (h : l.underlying = some walIO) (data : AnyValue) (s : σ) :
    (l.Write data s).err = ( walIO.Write data s).1 ∧
    (l.Write data s).state = ( walIO.Write data s).2 ∧
    (l.Write data s).events.filter Event.isSinkCall = [Event.sinkWrite data] ∧
    (l.Write data s).events =
      [Event.log ("[" ++ l.clientName ++ "] 📥 Received WAL record from UnisonDB"),
       Event.sinkWrite data] := by
  simp [LoggingWalHandler.Write, h, Event.isSinkCall]

/-- The statement of C1 at a handler around the counting sink. -/
theorem write_delegates_once_witness :
    (NewLoggingWalHandler (some countingSink) clientName).underlying = some countingSink ∧
    ((NewLoggingWalHandler (some countingSink) clientName).Write (AnyValue.other "rec" 7) 3).err
      = none ∧
    ((NewLoggingWalHandler (some countingSink) clientName).Write (AnyValue.other "rec" 7) 3).state
      = 4 :=
  ⟨rfl,
   (write_delegates_once (NewLoggingWalHandler (some countingSink) clientName) countingSink rfl
      (AnyValue.other "rec" 7) 3).1,
   (write_delegates_once (NewLoggingWalHandler (some countingSink) clientName) countingSink rfl
      (AnyValue.other "rec" 7) 3).2.1⟩

/-- C2: for a handler whose `underlying` holds a sink and for every `records` value,
of dynamic type `[]*interface{}` or not, `WriteBatch(records)` calls the sink's
`WriteBatch` exactly once with the identical argument and returns what it returns; the
assertion on `records` only chooses the text of the one log line. -/
theorem writeBatch_forwards_unconditionally {σ : Type} (l : LoggingWalHandler σ)
    ( walIO : WalIO σ) (h : l.underlying = some walIO) (records : AnyValue) (s : σ) :
    (l.WriteBatch records s).err = ( walIO.WriteBatch records s).1 ∧
    (l.WriteBatch records s).state = ( walIO.WriteBatch records s).2 ∧
    (l.WriteBatch records s).events.filter Event.isSinkCall = [Event.sinkWriteBatch records] ∧
    ∃ line, (l.WriteBatch records s).events = [Event.log line, Event.sinkWriteBatch records] ∧
      ((∃ recs, records = AnyValue.ptrInterfaceSlice recs ∧
          line = "[" ++ l.clientName ++ "] 📦 Received batch of " ++ toString recs.length ++
            " WAL records from UnisonDB") ∨
       ((∀ recs, records ≠ AnyValue.ptrInterfaceSlice recs) ∧
          line = "[" ++ l.clientName ++ "] 📦 Received WAL batch from UnisonDB")) := by
  cases records <;> simp [LoggingWalHandler.WriteBatch, h, Event.isSinkCall]

/-- The statement of C2 at a handler around the counting sink, on a value that is not a
slice: the sink is still called, and its error comes back. -/
theorem writeBatch_forwards_unconditionally_witness :
    (NewLoggingWalHandler (some countingSink) clientName).underlying = some countingSink ∧
    ((NewLoggingWalHandler (some countingSink) clientName).WriteBatch
        (AnyValue.other "string" 1) 0).err = some "not a batch" ∧
    ((NewLoggingWalHandler (some countingSink) clientName).WriteBatch
        (AnyValue.other "string" 1) 0).events.filter Event.isSinkCall
      = [Event.sinkWriteBatch (AnyValue.other "string" 1)] :=
  ⟨rfl,
   (writeBatch_forwards_unconditionally (NewLoggingWalHandler (some countingSink) clientName)
      countingSink rfl (AnyValue.other "string" 1) 0).1,
   (writeBatch_forwards_unconditionally (NewLoggingWalHandler (some countingSink) clientName)
      countingSink rfl (AnyValue.other "string" 1) 0).2.2.1⟩

/-- C3: for every handler, the nil `underlying` included, and every input: if `Write`
(or `WriteBatch`) returns nil, then the sink's method was called on that input and
returned nil; and when `underlying` is the nil interface the call returns the error
"underlying handler does not implement WalIO" and calls no method of any sink. -/
theorem never_silently_drops {σ : Type} (l : LoggingWalHandler σ) (v : AnyValue) (s : σ) :
    ((l.Write v s).err = none →
      ∃ walIO, l.underlying = some walIO ∧ ( walIO.Write v s).1 = none ∧
        Event.sinkWrite v ∈ (l.Write v s).events) ∧
    ((l.WriteBatch v s).err = none →
      ∃ walIO, l.underlying = some walIO ∧ ( walIO.WriteBatch v s).1 = none ∧
        Event.sinkWriteBatch v ∈ (l.WriteBatch v s).events) ∧
    (l.underlying = none →
      (l.Write v s).err = some "underlying handler does not implement WalIO" ∧
      (l.Write v s).events.filter Event.isSinkCall = [] ∧
      (l.Write v s).state = s ∧
      (l.WriteBatch v s).err = some "underlying handler does not implement WalIO" ∧
      (l.WriteBatch v s).events.filter Event.isSinkCall = [] ∧
      (l.WriteBatch v s).state = s) := by
  refine ⟨?_, ?_, ?_⟩
  · cases hu : l.underlying with
    | none => simp [LoggingWalHandler.Write, hu]
    | some w => simp [LoggingWalHandler.Write, hu]
  · cases hu : l.underlying with
    | none => simp [LoggingWalHandler.WriteBatch, hu]
    | some w => simp [LoggingWalHandler.WriteBatch, hu]
  · intro hu
    simp [LoggingWalHandler.Write, LoggingWalHandler.WriteBatch, hu, errNotWalIO,
      Event.isSinkCall]

/-- The statement of C3 at a handler whose `underlying` is the nil interface. -/
theorem never_silently_drops_witness :
    (NewLoggingWalHandler (none : Option ( WalIO Nat)) clientName).underlying = none ∧
    ((NewLoggingWalHandler (none : Option ( WalIO Nat)) clientName).Write AnyValue.nilValue 5).err
      = some "underlying handler does not implement WalIO" :=
  ⟨rfl,
   ((never_silently_drops (NewLoggingWalHandler (none : Option ( WalIO Nat)) clientName)
      AnyValue.nilValue 5).2.2 rfl).1⟩

/-- C4: the end of `main` takes the fatal branch, with the line "Relay error: ...",
exactly when `StartRelay` returned an error and `ctx.Err()` is not `context.Canceled`;
in every other case, and so for every returned error once the context is cancelled, it
logs the "shut down successfully" line and returns. -/
theorem relayEnd_fatal_iff (err : Option GoError) (ctxErr : Option CtxErr) :
    ((relayEnd err ctxErr).isFatal = true ↔ err ≠ none ∧ ctxErr ≠ some CtxErr.Canceled) ∧
    (∀ e, err = some e → ctxErr ≠ some CtxErr.Canceled →
      relayEnd err ctxErr = { logs := [], exit := Exit.fatal ("Relay error: " ++ e) }) ∧
    ((relayEnd err ctxErr).isFatal = false →
      relayEnd err ctxErr =
        { logs := ["✅ GRPC-CLIENT-2 shut down successfully"], exit := Exit.returned }) ∧
    relayEnd err (some CtxErr.Canceled) =
      { logs := ["✅ GRPC-CLIENT-2 shut down successfully"], exit := Exit.returned } := by
  cases err <;> cases ctxErr <;> simp [relayEnd, Run.isFatal, clientName]
  all_goals (rename_i c; cases c <;> simp [relayEnd, Run.isFatal, clientName])

/-- The statement of C4 where the relay returns an error after cancellation, and where
it returns one without cancellation. -/
theorem relayEnd_fatal_iff_witness :
    relayEnd (some "rpc error: context canceled") (some CtxErr.Canceled) =
      { logs := ["✅ GRPC-CLIENT-2 shut down successfully"], exit := Exit.returned } ∧
    relayEnd (some "stream closed") none =
      { logs := [], exit := Exit.fatal ("Relay error: " ++ "stream closed") } :=
  ⟨(relayEnd_fatal_iff (some "rpc error: context canceled") (some CtxErr.Canceled)).2.2.2,
   (relayEnd_fatal_iff (some "stream closed") none).2.1 "stream closed" rfl (by decide)⟩

/-- The run of `main` when the set-up succeeds: it ends as `relayEnd` says. -/
theorem main_of_setup_ok (flags : Flags) (env : Env) (engine : Engine)
    (hdir : env.MkdirAll flags.dataDir 0o755 = none)
    (hnew : initializeEngine env.dbkernelNew flags.dataDir flags.ns = Except.ok engine)
    (hdial : env.Dial flags.upstreamAddr = none) :
    (main flags env).exit =
      (relayEnd (env.StartRelay engine flags.ns 10) env.ctxErr).exit := by
  simp [main, hdir, hnew, hdial]

/-- C5, as stated, fails: when only the creation of the engine fails, `main` ends in
`log.Fatalf` although the data directory was created, the connection was established
and the relay reported nothing. -/
theorem fatal_only_for_listed_causes_fails :
    ¬ ∀ (flags : Flags) (env : Env), (main flags env).isFatal = true → listedCause flags env := by
  intro h
  have hf : (main {} engineFailsEnv).isFatal = true := by
    simp [main, initializeEngine, engineFailsEnv, Run.isFatal]
  have hc := h {} engineFailsEnv hf
  simp [listedCause, engineFailsEnv] at hc

/-- C5, amended: `main` ends in `log.Fatalf` exactly when `os.MkdirAll` fails, or
`initializeEngine` fails, or `grpc.Dial` fails, or `StartRelay` returns an error while
`ctx.Err()` is not `context.Canceled`; on every other outcome it returns, the last line
logged being the "shut down successfully" one. -/
theorem main_fatal_iff (flags : Flags) (env : Env) :
    ((main flags env).isFatal = true ↔
      env.MkdirAll flags.dataDir 0o755 ≠ none ∨
      (∃ err, initializeEngine env.dbkernelNew flags.dataDir flags.ns = Except.error err) ∨
      env.Dial flags.upstreamAddr ≠ none ∨
      (∃ engine, initializeEngine env.dbkernelNew flags.dataDir flags.ns = Except.ok engine ∧
        env.StartRelay engine flags.ns 10 ≠ none ∧ env.ctxErr ≠ some CtxErr.Canceled)) ∧
    ((main flags env).isFatal = false →
      (main flags env).exit = Exit.returned ∧
      (main flags env).logs.getLast? = some "✅ GRPC-CLIENT-2 shut down successfully") := by
  cases hdir : env.MkdirAll flags.dataDir 0o755 with
  | some e => simp [main, hdir, Run.isFatal]
  | none =>
    cases hnew : initializeEngine env.dbkernelNew flags.dataDir flags.ns with
    | error e => simp [main, hdir, hnew, Run.isFatal]
    | ok engine =>
      cases hdial : env.Dial flags.upstreamAddr with
      | some e => simp [main, hdir, hnew, hdial, Run.isFatal]
      | none =>
        cases hrel : env.StartRelay engine flags.ns 10 with
        | none => simp [main, hdir, hnew, hdial, hrel, relayEnd, Run.isFatal, clientName]
        | some e =>
          cases hctx : env.ctxErr with
          | none => simp [main, hdir, hnew, hdial, hrel, hctx, relayEnd, Run.isFatal]
          | some c =>
            cases c <;>
              simp [main, hdir, hnew, hdial, hrel, hctx, relayEnd, Run.isFatal, clientName]

/-- The statement of the amended C5 where the relay returns an error after
cancellation: `main` is not fatal and returns. -/
theorem main_fatal_iff_witness :
    (main {} (relayReturnsEnv (some "context canceled") (some CtxErr.Canceled))).isFatal = false ∧
    (main {} (relayReturnsEnv (some "context canceled") (some CtxErr.Canceled))).exit
      = Exit.returned :=
  ⟨by simp [main, initializeEngine, relayReturnsEnv, relayEnd, Run.isFatal],
   ((main_fatal_iff {} (relayReturnsEnv (some "context canceled") (some CtxErr.Canceled))).2
      (by simp [main, initializeEngine, relayReturnsEnv, relayEnd, Run.isFatal])).1⟩

/-- The engine calls of the reporter are one `CurrentOffset` per served tick. -/
theorem engineCalls_reporter (wakes : List Wake) :
    engineCalls (reporter wakes) =
      List.replicate (servedTicks wakes).length EngineCall.CurrentOffset := by
  induction wakes with
  | nil => rfl
  | cons w rest ih =>
    cases w with
    | done => rfl
    | tick current =>
      simp [reporter, servedTicks, reportTick, engineCalls, ih, List.replicate_succ]

/-- The lines of the reporter are one report line per served tick, in order. -/
theorem loggedLines_reporter (wakes : List Wake) :
    loggedLines (reporter wakes) = (servedTicks wakes).map reportLine := by
  induction wakes with
  | nil => rfl
  | cons w rest ih =>
    cases w with
    | done => rfl
    | tick current => simp [reporter, servedTicks, reportTick, loggedLines, ih]

/-- C9: on every tick the reporter calls `engine.CurrentOffset()` once and logs exactly
one line, which carries the `SegmentID` and `Offset` of the result when it is not nil and
is the "Waiting for first record..." line when it is nil; over any sequence of wake-ups
the reporter's engine calls are `CurrentOffset` only, one per tick served, and its lines
are the report lines of those ticks, in order. -/
theorem liveness_report_total_readonly (wakes : List Wake) :
    (∀ current, reportTick current =
      [ReportEvent.engine EngineCall.CurrentOffset, ReportEvent.log (reportLine current)]) ∧
    (∀ o : Offset, reportLine (some o) =
      "[GRPC-CLIENT-2] 📍 Current offset: segment=" ++ toString o.SegmentID ++
        ", offset=" ++ toString o.Offset) ∧
    reportLine none = "[GRPC-CLIENT-2] 📍 Waiting for first record..." ∧
    engineCalls (reporter wakes) =
      List.replicate (servedTicks wakes).length EngineCall.CurrentOffset ∧
    (∀ c ∈ engineCalls (reporter wakes), c = EngineCall.CurrentOffset) ∧
    loggedLines (reporter wakes) = (servedTicks wakes).map reportLine := by
  refine ⟨fun _ => rfl, ?_, ?_, engineCalls_reporter wakes, ?_, loggedLines_reporter wakes⟩
  · intro o
    simp [reportLine, clientName, String.append_assoc]
  · simp [reportLine, clientName]
  · intro c hc
    rw [engineCalls_reporter] at hc
    exact (List.mem_replicate.mp hc).2

/-- The statement of C9 on two ticks, the first before any record, followed by the
cancellation and a tick that is no longer served. -/
theorem liveness_report_total_readonly_witness :
    engineCalls (reporter [Wake.tick none, Wake.tick (some { SegmentID := 2, Offset := 40 }),
      Wake.done, Wake.tick none]) = [EngineCall.CurrentOffset, EngineCall.CurrentOffset] ∧
    loggedLines (reporter [Wake.tick none, Wake.tick (some { SegmentID := 2, Offset := 40 }),
      Wake.done, Wake.tick none]) =
      ["[GRPC-CLIENT-2] 📍 Waiting for first record...",
       "[GRPC-CLIENT-2] 📍 Current offset: segment=2, offset=40"] :=
  ⟨(liveness_report_total_readonly [Wake.tick none,
      Wake.tick (some { SegmentID := 2, Offset := 40 }), Wake.done, Wake.tick none]).2.2.2.1.trans
      (by decide),
   (liveness_report_total_readonly [Wake.tick none,
      Wake.tick (some { SegmentID := 2, Offset := 40 }), Wake.done,
      Wake.tick none]).2.2.2.2.2.trans (by decide)⟩

end Client

end UnisonDB

namespace UnisonDB

namespace Relay

/-- When `compare` answers `greater`: by the lexicographic rule. -/
theorem compare_greater_iff (a b : Offset) :
    compare a b = Cmp.greater ↔
      b.SegmentID < a.SegmentID ∨ (a.SegmentID = b.SegmentID ∧ b.Offset < a.Offset) := by
  unfold compare
  split_ifs <;> simp <;> omega

/-- The three answers of `compare` are the three cases of the lexicographic order. -/
theorem compare_less_iff (a b : Offset) :
    compare a b = Cmp.less ↔
      a.SegmentID < b.SegmentID ∨ (a.SegmentID = b.SegmentID ∧ a.Offset < b.Offset) := by
  unfold compare
  split_ifs <;> simp <;> omega

/-- The answer `equal` is given on equal offsets only. -/
theorem compare_equal_iff (a b : Offset) : compare a b = Cmp.equal ↔ a = b := by
  cases a with
  | mk sa oa =>
    cases b with
    | mk sb ob =>
      unfold compare
      simp only [Offset.mk.injEq]
      split_ifs <;> simp <;> omega

/-- In a well-formed batch the leading offset does not come after the terminal one. -/
theorem leading_le_terminal (b : Batch) (h : b.WellFormed) :
    compare b.leading b.terminal ≠ Cmp.greater := by
  unfold Batch.WellFormed Batch.records at h
  unfold Batch.leading Batch.terminal
  cases hl : b.rest.getLast? with
  | none =>
    simp only [Option.getD_none]
    rw [Ne, compare_greater_iff]
    omega
  | some r =>
    simp only [Option.getD_some]
    have hmem : r ∈ b.rest := List.mem_of_getLast?_eq_some hl
    simp only [List.map_cons, List.pairwise_cons] at h
    exact h.1 r.offset (List.mem_map_of_mem _ hmem)

/-- Running over one more batch is one more step. -/
theorem run_snoc (sink : Sink) (m : Nat) (current : Option Offset) (bs : List Batch)
    (b : Batch) :
    run sink m current (bs ++ [b]) = onBatch sink m (run sink m current bs) b := by
  simp [run, List.foldl_append]

/-- The offset applied last, after one more batch. -/
theorem lastOf_snoc (current : Option Offset) (l : List Batch) (b : Batch) :
    lastOf current (l ++ [b]) = some b.terminal := by
  simp [lastOf]

/-- Appending a batch keeps the applied batches in order exactly when the new batch
leads strictly after the offset applied last. -/
theorem appliedInOrder_snoc (current : Option Offset) (l : List Batch) (b : Batch) :
    AppliedInOrder current (l ++ [b]) ↔
      AppliedInOrder current l ∧ strictlyAfter (lastOf current l) b.leading = true := by
  induction l generalizing current with
  | nil => simp [AppliedInOrder, lastOf]
  | cons a rest ih =>
    have hl : lastOf current (a :: rest) = lastOf (some a.terminal) rest := by
      cases rest with
      | nil => simp [lastOf]
      | cons c t =>
        simp only [lastOf, List.getLast?_cons_cons]
        cases h : (c :: t).getLast? with
        | none => simp [List.getLast?_eq_none_iff] at h
        | some x => rfl
    show (strictlyAfter current a.leading = true ∧
        AppliedInOrder (some a.terminal) (rest ++ [b])) ↔
      (strictlyAfter current a.leading = true ∧ AppliedInOrder (some a.terminal) rest) ∧
        strictlyAfter (lastOf current (a :: rest)) b.leading = true
    rw [ih, hl, and_assoc]

/-- What a step does to the session, case by case. -/
theorem onBatch_cases (sink : Sink) (m : Nat) (s : Session) (b : Batch) :
    (onBatch sink m s b).applied = s.applied ∧ (onBatch sink m s b).lastApplied = s.lastApplied ∨
    (s.fatal = false ∧ strictlyAfter s.lastApplied b.leading = true ∧
      (onBatch sink m s b).applied = s.applied ++ [b] ∧
      (onBatch sink m s b).lastApplied = some b.terminal) := by
  unfold onBatch
  by_cases hf : s.fatal = true
  · simp [hf]
  · by_cases hs : strictlyAfter s.lastApplied b.leading = true
    · rcases hr : applyWithRetry sink b m s.calls with ⟨ok, c⟩
      cases ok <;> simp [hf, hs, hr]
    · simp [hf, hs]

/-- The invariant of the run: the last applied offset is the one the applied batches
end at, the applied batches are in order, and they are delivered batches, in arrival
order. -/
theorem run_invariant (sink : Sink) (m : Nat) (current : Option Offset) (bs : List Batch) :
    (run sink m current bs).lastApplied = lastOf current (run sink m current bs).applied ∧
    AppliedInOrder current (run sink m current bs).applied ∧
    (run sink m current bs).applied.Sublist bs := by
  induction bs using List.reverseRecOn with
  | nil => simp [run, start, lastOf, AppliedInOrder]
  | append_singleton bs b ih =>
    obtain ⟨h1, h2, h3⟩ := ih
    rw [run_snoc]
    rcases onBatch_cases sink m (run sink m current bs) b with ⟨ha, hl⟩ | ⟨_, hs, ha, hl⟩
    · rw [ha, hl]
      exact ⟨h1, h2, h3.trans (List.sublist_append_left bs [b])⟩
    · rw [ha, hl, lastOf_snoc, appliedInOrder_snoc]
      refine ⟨rfl, ⟨h2, ?_⟩, List.Sublist.append h3 (List.Sublist.refl [b])⟩
      rw [← h1]
      exact hs

/-- In a list of well-formed batches applied in order after the offset `o`, every batch
leads strictly after `o`. -/
theorem leading_after_of_appliedInOrder (o : Offset) (l : List Batch)
    (hwf : ∀ b ∈ l, b.WellFormed) (h : AppliedInOrder (some o) l) :
    ∀ c ∈ l, compare c.leading o = Cmp.greater := by
  induction l generalizing o with
  | nil => simp
  | cons b rest ih =>
    obtain ⟨hb, hrest⟩ := h
    have hb1 : compare b.leading o = Cmp.greater := by simpa [strictlyAfter] using hb
    intro c hc
    rcases List.mem_cons.mp hc with rfl | hc
    · exact hb1
    · have h2 := ih b.terminal (fun x hx => hwf x (List.mem_cons_of_mem _ hx)) hrest c hc
      have h3 := leading_le_terminal b (hwf b (List.mem_cons_self _ _))
      rw [Ne, compare_greater_iff] at h3
      rw [compare_greater_iff] at h2 hb1 ⊢
      omega

/-- Well-formed batches applied in order are pairwise different. -/
theorem nodup_of_appliedInOrder (last : Option Offset) (l : List Batch)
    (hwf : ∀ b ∈ l, b.WellFormed) (h : AppliedInOrder last l) : l.Nodup := by
  induction l generalizing last with
  | nil => exact List.nodup_nil
  | cons b rest ih =>
    obtain ⟨_, hrest⟩ := h
    have hwf2 : ∀ x ∈ rest, x.WellFormed := fun x hx => hwf x (List.mem_cons_of_mem _ hx)
    refine List.nodup_cons.mpr ⟨?_, ih (some b.terminal) hwf2 hrest⟩
    intro hmem
    have h2 := leading_after_of_appliedInOrder b.terminal rest hwf2 hrest b hmem
    exact leading_le_terminal b (hwf b (List.mem_cons_self _ _)) h2

/-- C6: over every sequence of well-formed batches the upstream delivers, whatever the
sink does and wherever the replica starts, each applied batch leads strictly after the
offset applied before it, in the (segmentID, offset) lexicographic order; the applied
batches are delivered batches in arrival order, and none is applied twice; a batch that
does not lead strictly after the last applied offset is dropped without a call to the
sink, and a batch delivered again right after it was applied is such a batch. -/
theorem relay_monotone (sink : Sink) (m : Nat) (current : Option Offset)
    (batches : List Batch) (hwf : ∀ b ∈ batches, b.WellFormed) :
    AppliedInOrder current (run sink m current batches).applied ∧
    (run sink m current batches).lastApplied =
      lastOf current (run sink m current batches).applied ∧
    (run sink m current batches).applied.Sublist batches ∧
    (run sink m current batches).applied.Nodup ∧
    (∀ (s : Session) (b : Batch), s.fatal = false →
      strictlyAfter s.lastApplied b.leading = false →
      onBatch sink m s b = { s with dropped := s.dropped ++ [b] }) ∧
    (∀ b ∈ batches, strictlyAfter (some b.terminal) b.leading = false) := by
  obtain ⟨h1, h2, h3⟩ := run_invariant sink m current batches
  refine ⟨h2, h1, h3, ?_, ?_, ?_⟩
  · exact nodup_of_appliedInOrder current _ (fun b hb => hwf b (h3.subset hb)) h2
  · intro s b hf hs
    simp [onBatch, hf, hs]
  · intro b hb
    have h := leading_le_terminal b (hwf b hb)
    simpa [strictlyAfter] using h

/-- The statement of C6 on a delivery that repeats a batch and then regresses: the first
and the last batch are applied, the two in between are dropped. -/
theorem relay_monotone_witness :
    (∀ b ∈ [batchOf 1 [2, 3], batchOf 1 [2, 3], batchOf 2 [3, 4], batchOf 4 [5]],
      b.WellFormed) ∧
    (run healthySink 3 none
      [batchOf 1 [2, 3], batchOf 1 [2, 3], batchOf 2 [3, 4], batchOf 4 [5]]).applied
      = [batchOf 1 [2, 3], batchOf 4 [5]] ∧
    (run healthySink 3 none
      [batchOf 1 [2, 3], batchOf 1 [2, 3], batchOf 2 [3, 4], batchOf 4 [5]]).applied.Nodup :=
  ⟨by decide, by decide,
   (relay_monotone healthySink 3 none
      [batchOf 1 [2, 3], batchOf 1 [2, 3], batchOf 2 [3, 4], batchOf 4 [5]] (by decide)).2.2.2.1⟩

end Relay

end UnisonDB

namespace UnisonDB

namespace Writer

/-- Looking up the character of an index gives the index back. -/
theorem decodeChar_encodeChar (i : Nat) (h : i < 64) : decodeChar (encodeChar i) = some i := by
  interval_cases i <;> decide

/-- The padding character is not in the alphabet. -/
theorem encodeChar_ne_pad (i : Nat) (h : i < 64) : encodeChar i ≠ padChar := by
  interval_cases i <;> decide

/-- The character of an index is in the alphabet. -/
theorem encodeChar_mem (i : Nat) (h : i < 64) : encodeChar i ∈ encodeStd.data := by
  interval_cases i <;> decide

/-- A number congruent to a byte modulo 256 is that byte. -/
theorem toByte_eq (a : Byte) (n : Nat) (h : n % 256 = a.val) : toByte n = a := by
  apply Fin.ext
  simpa [toByte] using h

/-- Decoding the encoding of a list of bytes gives the list back. -/
theorem decodeGroups_encodeGroups (bs : List Byte) :
    decodeGroups (encodeGroups bs) = some bs := by
  induction bs using encodeGroups.induct with
  | case1 a b c rest ih =>
    have ha := a.isLt
    have hb := b.isLt
    have hc := c.isLt
    simp only [encodeGroups, decodeGroups]
    rw [if_neg (encodeChar_ne_pad _ (Nat.mod_lt _ (by decide)))]
    simp only [decodeChar_encodeChar _ (Nat.mod_lt _ (by decide)), ih]
    rw [toByte_eq a _ (by omega), toByte_eq b _ (by omega), toByte_eq c _ (by omega)]
  | case2 a b =>
    have ha := a.isLt
    have hb := b.isLt
    simp only [encodeGroups, decodeGroups]
    rw [if_pos trivial, if_neg (by simp), if_neg (encodeChar_ne_pad _ (Nat.mod_lt _ (by decide)))]
    simp only [decodeChar_encodeChar _ (Nat.mod_lt _ (by decide))]
    rw [toByte_eq a _ (by omega), toByte_eq b _ (by omega)]
  | case3 a =>
    have ha := a.isLt
    simp only [encodeGroups, decodeGroups]
    rw [if_pos trivial, if_neg (by simp), if_pos trivial]
    simp only [decodeChar_encodeChar _ (Nat.mod_lt _ (by decide))]
    rw [toByte_eq a _ (by omega)]
  | case4 => rfl

/-- The encoding has four characters for every started group of three bytes. -/
theorem length_encodeGroups (bs : List Byte) :
    (encodeGroups bs).length = 4 * ((bs.length + 2) / 3) := by
  induction bs using encodeGroups.induct with
  | case1 a b c rest ih =>
    simp only [encodeGroups, List.length_cons, ih]
    omega
  | case2 a b => simp [encodeGroups]
  | case3 a => simp [encodeGroups]
  | case4 => rfl

/-- The encoding holds characters of the alphabet and padding only. -/
theorem mem_encodeGroups (bs : List Byte) :
    ∀ ch ∈ encodeGroups bs, ch ∈ encodeStd.data ∨ ch = padChar := by
  induction bs using encodeGroups.induct with
  | case1 a b c rest ih =>
    intro ch hch
    simp only [encodeGroups, List.mem_cons] at hch
    rcases hch with rfl | rfl | rfl | rfl | h
    · exact Or.inl (encodeChar_mem _ (Nat.mod_lt _ (by decide)))
    · exact Or.inl (encodeChar_mem _ (Nat.mod_lt _ (by decide)))
    · exact Or.inl (encodeChar_mem _ (Nat.mod_lt _ (by decide)))
    · exact Or.inl (encodeChar_mem _ (Nat.mod_lt _ (by decide)))
    · exact ih ch h
  | case2 a b =>
    intro ch hch
    simp only [encodeGroups, List.mem_cons, List.mem_singleton, List.not_mem_nil, or_false] at hch
    rcases hch with rfl | rfl | rfl | rfl
    · exact Or.inl (encodeChar_mem _ (Nat.mod_lt _ (by decide)))
    · exact Or.inl (encodeChar_mem _ (Nat.mod_lt _ (by decide)))
    · exact Or.inl (encodeChar_mem _ (Nat.mod_lt _ (by decide)))
    · exact Or.inr rfl
  | case3 a =>
    intro ch hch
    simp only [encodeGroups, List.mem_cons, List.mem_singleton, List.not_mem_nil, or_false] at hch
    rcases hch with rfl | rfl | rfl | rfl
    · exact Or.inl (encodeChar_mem _ (Nat.mod_lt _ (by decide)))
    · exact Or.inl (encodeChar_mem _ (Nat.mod_lt _ (by decide)))
    · exact Or.inr rfl
    · exact Or.inr rfl
  | case4 => simp [encodeGroups]

/-- The characters of the alphabet are letters, digits, `+` and `/`. -/
theorem alphabet_chars : ∀ c ∈ encodeStd.data, inBase64Alphabet c = true := by
  decide

/-- C8: the document `writeToUnisonDB` sends has its field `value` equal to the padded
base64 encoding of the bytes of the value, on every request it issues; for every
sequence of bytes, decoding the encoding gives the bytes back, the encoding holds only
the characters `A`-`Z`, `a`-`z`, `0`-`9`, `+`, `/` and `=`, and its length is
4 * ceil(len / 3). -/
theorem put_body_base64_lossless (value : String) (bs : List Byte) :
    (putRequest value).Value = EncodeToString (goBytes value) ∧
    (∀ (env : HttpEnv) (key : String), ∀ r ∈ (writeToUnisonDB env key value).requests,
      r.body = { Value := EncodeToString (goBytes value) }) ∧
    DecodeString (EncodeToString bs) = some bs ∧
    (∀ c ∈ (EncodeToString bs).data, inBase64Alphabet c = true) ∧
    (EncodeToString bs).length = 4 * ((bs.length + 2) / 3) := by
  refine ⟨rfl, ?_, ?_, ?_, ?_⟩
  · intro env key r hr
    unfold writeToUnisonDB at hr
    cases hn : env.NewRequest "PUT" (putURL key) with
    | some e => simp [hn] at hr
    | none =>
      simp only [hn] at hr
      cases hd : env.Do { method := "PUT", url := putURL key, body := putRequest value,
                          contentType := "application/json" } with
      | error e =>
        simp only [hd, List.mem_singleton] at hr
        rw [hr]
        rfl
      | ok code =>
        simp only [hd] at hr
        split_ifs at hr <;>
          (simp only [List.mem_singleton] at hr
           rw [hr]
           rfl)
  · exact decodeGroups_encodeGroups bs
  · intro c hc
    rcases mem_encodeGroups bs c hc with h | h
    · exact alphabet_chars c h
    · rw [h]
      decide
  · exact length_encodeGroups bs

/-- The statement of C8 on the three bytes of "foo" and on the two bytes of "fo". -/
theorem put_body_base64_lossless_witness :
    DecodeString (EncodeToString [102, 111, 111]) = some [102, 111, 111] ∧
    (EncodeToString [102, 111]).length = 4 ∧
    EncodeToString [102, 111] = "Zm8=" :=
  ⟨(put_body_base64_lossless "" [102, 111, 111]).2.2.1,
   (put_body_base64_lossless "" [102, 111]).2.2.2.2,
   by decide⟩

/-- The URL is the fixed prefix followed by the key. -/
theorem putURL_eq (key : String) :
    putURL key = "http://localhost:8001/api/v1/demo/kv/" ++ key := by
  have h : unisonDBURL ++ "/" ++ ns ++ "/kv/" = "http://localhost:8001/api/v1/demo/kv/" := by
    decide
  unfold putURL
  rw [h]

/-- Different keys give different URLs. -/
theorem putURL_injective (key1 key2 : String) (h : putURL key1 = putURL key2) :
    key1 = key2 := by
  rw [putURL_eq, putURL_eq] at h
  have hd := congrArg String.data h
  simp only [String.data_append] at hd
  exact String.ext (List.append_cancel_left hd)

/-- The requests `writeToUnisonDB` issues: the one PUT when `http.NewRequest` accepts
the URL, none otherwise. -/
theorem writeToUnisonDB_requests (env : HttpEnv) (key value : String) :
    (writeToUnisonDB env key value).requests =
      match env.NewRequest "PUT" (putURL key) with
      | some _ => []
      | none => [{ method := "PUT", url := putURL key, body := putRequest value,
                   contentType := "application/json" }] := by
  cases hn : env.NewRequest "PUT" (putURL key) with
  | some e => simp [writeToUnisonDB, hn]
  | none =>
    cases hd : env.Do { method := "PUT", url := putURL key, body := putRequest value,
                        contentType := "application/json" } with
    | error e => simp [writeToUnisonDB, hn, hd]
    | ok code => by_cases h : code = 200 <;> simp [writeToUnisonDB, hn, hd, h]

/-- When `writeToUnisonDB` returns nil: the request was created and the upstream
answered it with 200. -/
theorem writeToUnisonDB_ok_iff (env : HttpEnv) (key value : String) :
    (writeToUnisonDB env key value).err = none ↔
      env.NewRequest "PUT" (putURL key) = none ∧
      env.Do { method := "PUT", url := putURL key, body := putRequest value,
               contentType := "application/json" } = Except.ok 200 := by
  cases hn : env.NewRequest "PUT" (putURL key) with
  | some e => simp [writeToUnisonDB, hn]
  | none =>
    cases hd : env.Do { method := "PUT", url := putURL key, body := putRequest value,
                        contentType := "application/json" } with
    | error e => simp [writeToUnisonDB, hn, hd]
    | ok code => by_cases h : code = 200 <;> simp [writeToUnisonDB, hn, hd, h]

/-- C7, as stated, fails: a request with a non-empty key and a non-empty value whose
key holds a line feed is accepted, but `http.NewRequest` rejects the URL and no
upstream request is issued. -/
theorem accepted_request_one_put_fails :
    ¬ ∀ (env : HttpEnv) (req : WriteRequest), req.Key ≠ "" → req.Value ≠ "" →
        (writeHandler env (Except.ok req)).requests.length = 1 := by
  intro h
  have h1 := h strictEnv { Key := "a\nb", Value := "v" } (by decide) (by decide)
  have h2 : (writeHandler strictEnv (Except.ok { Key := "a\nb", Value := "v" })).requests = [] := by
    decide
  rw [h2] at h1
  exact absurd h1 (by decide)

/-- C7, amended: for every request that decodes with a non-empty key and a non-empty
value, the URL built is exactly `unisonDBURL + "/" + namespace + "/kv/" + Key` with the
key verbatim, and when `http.NewRequest` accepts that URL `writeHandler` issues exactly
one upstream request, a PUT on it, while when `http.NewRequest` rejects it
`writeHandler` issues none and answers 500 with the wrapped error; different keys give
different URLs; and a rejected request (a body that does not decode, an empty key or an
empty value) issues no upstream request. -/
theorem write_ingress_single_put (env : HttpEnv) (req : WriteRequest)
    (hk : req.Key ≠ "") (hv : req.Value ≠ "") :
    putURL req.Key = "http://localhost:8001/api/v1/demo/kv/" ++ req.Key ∧
    (env.NewRequest "PUT" (putURL req.Key) = none →
      (writeHandler env (Except.ok req)).requests =
        [{ method := "PUT", url := putURL req.Key, body := putRequest req.Value,
           contentType := "application/json" }]) ∧
    (env.NewRequest "PUT" (putURL req.Key) ≠ none →
      (writeHandler env (Except.ok req)).requests = [] ∧
      (writeHandler env (Except.ok req)).response.status = 500) ∧
    (∀ key1 key2 : String, key1 ≠ key2 → putURL key1 ≠ putURL key2) ∧
    (∀ e, (writeHandler env (Except.error e)).requests = []) ∧
    (∀ r : WriteRequest, r.Key = "" ∨ r.Value = "" →
      (writeHandler env (Except.ok r)).requests = []) ∧
    (∀ e, env.NewRequest "PUT" (putURL req.Key) = some e →
      (writeHandler env (Except.ok req)).response =
        respondError 500
          ("Failed to write to UnisonDB: " ++ ("failed to create request: " ++ e))) := by
  have hreq : (writeHandler env (Except.ok req)).requests =
      (writeToUnisonDB env req.Key req.Value).requests := by
    unfold writeHandler
    simp only [hk, hv, or_self, if_false]
    cases (writeToUnisonDB env req.Key req.Value).err <;> rfl
  have hresp : ∀ e, env.NewRequest "PUT" (putURL req.Key) = some e →
      (writeHandler env (Except.ok req)).response =
        respondError 500
          ("Failed to write to UnisonDB: " ++ ("failed to create request: " ++ e)) := by
    intro e he
    simp [writeHandler, hk, hv, writeToUnisonDB, he]
  refine ⟨putURL_eq req.Key, ?_, ?_, ?_, ?_, ?_, hresp⟩
  · intro hn
    rw [hreq, writeToUnisonDB_requests, hn]
  · intro hn
    cases h : env.NewRequest "PUT" (putURL req.Key) with
    | none => exact absurd h hn
    | some e =>
      refine ⟨?_, ?_⟩
      · rw [hreq, writeToUnisonDB_requests, h]
      · rw [hresp e h]
        rfl
  · intro key1 key2 hne h
    exact hne (putURL_injective key1 key2 h)
  · intro e
    rfl
  · intro r hr
    simp [writeHandler, hr]

/-- The statement of the amended C7 at a request the library accepts (one PUT, on the
URL that ends in the key) and at one whose key holds a line feed (no request, 500). -/
theorem write_ingress_single_put_witness :
    ({ Key := "user:1", Value := "v" } : WriteRequest).Key ≠ "" ∧
    ({ Key := "user:1", Value := "v" } : WriteRequest).Value ≠ "" ∧
    putURL "user:1" = "http://localhost:8001/api/v1/demo/kv/user:1" ∧
    ((writeHandler strictEnv (Except.ok { Key := "user:1", Value := "v" })).requests.map
        (fun r => (r.method, r.url)))
      = [("PUT", "http://localhost:8001/api/v1/demo/kv/user:1")] ∧
    ((writeHandler strictEnv (Except.ok { Key := "a\nb", Value := "v" })).requests = [] ∧
     (writeHandler strictEnv (Except.ok { Key := "a\nb", Value := "v" })).response.status
       = 500) :=
  ⟨by decide, by decide,
   (write_ingress_single_put strictEnv { Key := "user:1", Value := "v" }
      (by decide) (by decide)).1,
   by
    rw [(write_ingress_single_put strictEnv { Key := "user:1", Value := "v" }
      (by decide) (by decide)).2.1 (by decide)]
    decide,
   (write_ingress_single_put strictEnv { Key := "a\nb", Value := "v" }
      (by decide) (by decide)).2.2.1 (by decide)⟩

/-- C10: the response of `writeHandler` follows the table. It is 400 with "Invalid
request body" when the body does not decode; otherwise 400 with "Key and value are
required" when the key or the value is empty; otherwise 500 when `writeToUnisonDB`
returns an error, which it does whenever the request cannot be created or sent or the
upstream answers with a status other than 200; otherwise 200 with `Success = true` and
the key of the request. `Success = true` is reported exactly when the request was
accepted and the upstream answered the PUT with 200. -/
theorem writeHandler_table (env : HttpEnv) (decoded : Except GoError WriteRequest) :
    (writeHandler env decoded).response.status = tableStatus env decoded ∧
    (∀ e, decoded = Except.error e →
      (writeHandler env decoded).response = respondError 400 "Invalid request body") ∧
    (∀ req, decoded = Except.ok req → req.Key = "" ∨ req.Value = "" →
      (writeHandler env decoded).response = respondError 400 "Key and value are required") ∧
    (∀ req, decoded = Except.ok req → req.Key ≠ "" → req.Value ≠ "" →
      (∀ e, (writeToUnisonDB env req.Key req.Value).err = some e →
        (writeHandler env decoded).response =
          respondError 500 ("Failed to write to UnisonDB: " ++ e)) ∧
      ((writeToUnisonDB env req.Key req.Value).err = none →
        (writeHandler env decoded).response =
          respondJSON 200 (Payload.write
            { Success := true, Message := "Data written to UnisonDB successfully",
              Key := req.Key }))) ∧
    (∀ key value, (writeToUnisonDB env key value).err = none ↔
      env.NewRequest "PUT" (putURL key) = none ∧
      env.Do { method := "PUT", url := putURL key, body := putRequest value,
               contentType := "application/json" } = Except.ok 200) ∧
    (reportsSuccess (writeHandler env decoded).response = true ↔
      ∃ req, decoded = Except.ok req ∧ req.Key ≠ "" ∧ req.Value ≠ "" ∧
        env.NewRequest "PUT" (putURL req.Key) = none ∧
        env.Do { method := "PUT", url := putURL req.Key, body := putRequest req.Value,
                 contentType := "application/json" } = Except.ok 200) := by
  refine ⟨?_, ?_, ?_, ?_, writeToUnisonDB_ok_iff env, ?_⟩
  · cases decoded with
    | error e => rfl
    | ok req =>
      by_cases hkv : req.Key = "" ∨ req.Value = ""
      · simp [writeHandler, tableStatus, hkv, respondError, respondJSON]
      · cases hn : env.NewRequest "PUT" (putURL req.Key) with
        | some e =>
          simp [writeHandler, tableStatus, hkv, writeToUnisonDB, hn, respondError, respondJSON]
        | none =>
          cases hd : env.Do { method := "PUT", url := putURL req.Key,
                              body := putRequest req.Value,
                              contentType := "application/json" } with
          | error e =>
            simp [writeHandler, tableStatus, hkv, writeToUnisonDB, hn, hd, respondError,
              respondJSON]
          | ok code =>
            by_cases h : code = 200 <;>
              simp [writeHandler, tableStatus, hkv, writeToUnisonDB, hn, hd, h, respondError,
                respondJSON]
  · intro e he
    rw [he]
    rfl
  · intro req hreq hkv
    rw [hreq]
    simp [writeHandler, hkv]
  · intro req hreq hk hv
    rw [hreq]
    constructor
    · intro e he
      simp [writeHandler, hk, hv, he]
    · intro he
      simp [writeHandler, hk, hv, he]
  · cases decoded with
    | error e => simp [writeHandler, reportsSuccess, respondError, respondJSON]
    | ok req =>
      by_cases hkv : req.Key = "" ∨ req.Value = ""
      · have hkv2 : ¬ (¬ req.Key = "" ∧ ¬ req.Value = "") := by tauto
        simp only [writeHandler, hkv, if_true, reportsSuccess, respondError, respondJSON,
          Except.ok.injEq, exists_eq_left', ne_eq]
        constructor
        · intro h
          exact absurd h (by decide)
        · intro h
          exact absurd ⟨h.1, h.2.1⟩ hkv2
      · have hk : req.Key ≠ "" := fun h => hkv (Or.inl h)
        have hv : req.Value ≠ "" := fun h => hkv (Or.inr h)
        have hiff := writeToUnisonDB_ok_iff env req.Key req.Value
        cases he : (writeToUnisonDB env req.Key req.Value).err with
        | some e =>
          rw [he] at hiff
          simp only [writeHandler, hkv, if_false, he, reportsSuccess, respondError,
            respondJSON, Except.ok.injEq, exists_eq_left', ne_eq]
          constructor
          · intro h
            exact absurd h (by decide)
          · intro h
            exact absurd (hiff.mpr ⟨h.2.2.1, h.2.2.2⟩) (by simp)
        | none =>
          rw [he] at hiff
          simp only [writeHandler, hkv, if_false, he, reportsSuccess, respondJSON,
            Except.ok.injEq, exists_eq_left', ne_eq, true_iff]
          exact ⟨hk, hv, (hiff.mp rfl).1, (hiff.mp rfl).2⟩

/-- The statement of C10 where the upstream answers another 2xx status: the response is
500 and `Success` is not reported. -/
theorem writeHandler_table_witness :
    (writeHandler (answeringEnv 201) (Except.ok { Key := "k", Value := "v" })).response.status
      = 500 :=
  ((writeHandler_table (answeringEnv 201) (Except.ok { Key := "k", Value := "v" })).1).trans
    (by decide)

end Writer

end UnisonDB
